import Mathlib

/-!
Shallow embedding of the message-queue engine in `src/msgq.c` (a local
inter-process message queue over connectionless UNIX-domain sockets).

Machine integers are modelled as `Nat`/`Int`; heap effects and OS calls are
modelled by explicit state passing and by event traces; fallible steps return
`Option`.  The intrusive doubly linked list of `elist.h` is not under `src/`,
so its queue operations are modelled from the spec as operations on a Lean
`List` (push-to-tail / pop-from-head / full detach), with the FIFO sequence
holding the nodes in arrival order.
-/

namespace Msgq

/-- The fixed packet-header size, `offsetof(struct msgq_packet, data)`.
Modelled from the spec: `msgq.h` (the definition of `struct msgq_packet`)
is not under `src/`; the test comment in `msgq.c` states that the first
8 bytes of every datagram are the packet header (`size` plus `container`),
followed by the raw payload bytes. -/
def headerSize : Nat := 8

/-- `struct msgq_packet`: declared payload length `size`, the payload bytes
`data` (bytes as `Nat`), and the back-reference `container` to the owning
node (a node identity, or `none` for caller-built packets). -/
structure Packet where
  size : Nat
  container : Option Nat
  data : List Nat
  deriving Repr, DecidableEq

/-- `struct msgq_node`: sender address and the owned packet.  The `elist`
linkage is represented by the node's membership in the FIFO list itself. -/
structure Node where
  sender : String
  packet : Packet
  deriving Repr, DecidableEq

/-- The mutable queue state of a `struct msgq_` handle: the FIFO sequence
`recvq` (head = oldest) and the pending-count `recvs`. -/
structure State where
  recvq : List Node
  recvs : Nat
  deriving Repr, DecidableEq

/-- The queue-state invariant: the pending-count equals the length of the
FIFO sequence. -/
def Inv (s : State) : Prop := s.recvs = s.recvq.length

instance (s : State) : Decidable (Inv s) := by
  unfold Inv; infer_instance

/-- The state of a freshly opened handle: `ELIST_INIT(p->recvq)` and
`p->recvs = 0` in `msgq_open`. -/
def openState : State := ⟨[], 0⟩

/-- Modelled from the spec: `edque_push_back` of the black-box ordered
container `elist.h` (not under `src/`) appends a node at the tail. -/
def edque_push_back (q : List Node) (np : Node) : List Node := q ++ [np]

/-- Modelled from the spec: `edque_pop_front` of `elist.h` pops the head
node, fully detached from the sequence, or reports the queue empty. -/
def edque_pop_front (q : List Node) : Option (Node × List Node) :=
  match q with
  | [] => none
  | np :: rest => some (np, rest)

/-- `validate_packet(packet, len)`: `estimated = len - offsetof(..., data)`;
a negative `estimated` (datagram shorter than the fixed header) rejects the
packet; a declared `size` larger than `estimated` is truncated down to
`estimated`; `container` is cleared.  `len` is the `ssize_t` byte count
received from the transport. -/
def validate_packet (packet : Packet) (len : Int) : Option Packet :=
  let estimated : Int := len - (headerSize : Int)
  if estimated < 0 then
    none
  else
    let sz : Nat := if estimated < (packet.size : Int) then estimated.toNat else packet.size
    some ⟨sz, none, packet.data⟩

/-- The payload index probed by `msgq_copy_packet` to decide whether to add
a trailing terminator: `packet->data[packet->size - 1]`, as a signed index. -/
def copyProbeIndex (packet : Packet) : Int := (packet.size : Int) - 1

/-- The probe of `msgq_copy_packet` stays inside the payload bounds
`[0, size)`. -/
def probeInBounds (packet : Packet) : Prop :=
  0 ≤ copyProbeIndex packet ∧ copyProbeIndex packet < (packet.size : Int)

instance (packet : Packet) : Decidable (probeInBounds packet) := by
  unfold probeInBounds; infer_instance

/-- The byte `packet->data[packet->size - 1]` read by `msgq_copy_packet`
(meaningful when `probeInBounds` holds and the payload bytes are present). -/
def lastPayloadByte (packet : Packet) : Nat :=
  packet.data.getD (packet.size - 1) 0

/-- `msgq_copy_packet(packet)`: duplicates the packet.
`sizeof(*packet) + packet->size` bytes are copied; when the last payload
byte is not `'\0'`, one extra byte is allocated (`newsize = size + 1`) and
set to `'\0'` at `data[size]`, with the recorded `size` member left
unchanged.  Returns the duplicate and the number of bytes allocated. -/
def msgq_copy_packet (packet : Packet) : Packet × Nat :=
  if lastPayloadByte packet ≠ 0 then
    (⟨packet.size, packet.container, packet.data.take packet.size ++ [0]⟩,
     headerSize + packet.size + 1)
  else
    (⟨packet.size, packet.container, packet.data.take packet.size⟩,
     headerSize + packet.size)

/-- `msgq_node_create(sender, packet)`: allocates a node holding a duplicate
of `packet` whose `container` points back at the node; `allocOk` injects the
outcome of the two `malloc` calls. -/
def msgq_node_create (sender : String) (packet : Packet) (allocOk : Bool) :
    Option Node :=
  if allocOk then
    let p := (msgq_copy_packet packet).1
    some ⟨sender, ⟨p.size, some 0, p.data⟩⟩
  else
    none

/-- One iteration of the `msgq_receiver` loop for a datagram of `len` bytes
received from `sender`, with payload header fields `packet`: validate, wrap
in a node, and — under the mutex — append to the FIFO tail, increment the
pending-count and wake waiters.  A rejected datagram or a failed node
allocation leaves the state unchanged and surfaces nothing. -/
def receiverStep (s : State) (sender : String) (packet : Packet) (len : Nat)
    (allocOk : Bool) : State :=
  match validate_packet packet (len : Int) with
  | none => s
  | some vp =>
    match msgq_node_create sender vp allocOk with
    | none => s
    | some np => ⟨edque_push_back s.recvq np, s.recvs + 1⟩

/-- An inbound datagram as handed to the receiver loop: transport sender
address, the header fields and payload bytes in the receive buffer, the
received byte count, and the node-allocation outcome. -/
structure Dgram where
  sender : String
  packet : Packet
  len : Nat
  allocOk : Bool
  deriving Repr, DecidableEq

/-- Run the receiver loop over a sequence of inbound datagrams. -/
def deliverAll (s : State) (ds : List Dgram) : State :=
  ds.foldl (fun t d => receiverStep t d.sender d.packet d.len d.allocOk) s

/-- A datagram that results in a successful delivery: it passes validation
and node allocation succeeds. -/
def accepted (d : Dgram) : Prop :=
  (validate_packet d.packet (d.len : Int)).isSome ∧ d.allocOk = true

instance (d : Dgram) : Decidable (accepted d) := by
  unfold accepted; infer_instance

/-- `msgq_message_count(msgq)`: reads `recvs` under the mutex. -/
def msgq_message_count (s : State) : Nat := s.recvs

/-- `msgq_recv(msgq)`: under the mutex, pop the head node if any and
decrement the pending-count; return its packet, or `none` if the queue is
empty. -/
def msgq_recv (s : State) : Option Packet × State :=
  match edque_pop_front s.recvq with
  | none => (none, s)
  | some (np, rest) => (some np.packet, ⟨rest, s.recvs - 1⟩)

/-- `msgq_recv_wait(msgq)`, run over the sequence of queue states it
observes at consecutive holds of the mutex (the state at entry, then the
state after each `pthread_cond_wait` wakeup): on the first observation with
a non-empty queue it pops the head, decrements the pending-count and
returns the packet; an observation with an empty queue parks on the
condition variable and re-checks (never returns).  `none` means every
observed state was empty and the call is still waiting. -/
def recvWaitRun : List State → Option (Packet × State)
  | [] => none
  | s :: rest =>
    match edque_pop_front s.recvq with
    | some (np, rest') => some (np.packet, ⟨rest', s.recvs - 1⟩)
    | none => recvWaitRun rest

/-- The observable effects of `msgq_close`, in program order.  `freeNode s`
stands for the pair `free(np->packet); free(np)` for the node whose sender
is `s`. -/
inductive CloseEv
  | cancelReceiver
  | joinReceiver
  | lockQ
  | closeSocket
  | freeBuffer
  | freeNode (sender : String)
  | unlockQ
  | destroyMutex
  | destroyCond
  | freeHandle
  deriving Repr, DecidableEq

/-- The drain loop of `msgq_close`: `edque_pop_front` until empty, freeing
each node and its packet. -/
def closeDrain : List Node → List CloseEv
  | [] => []
  | np :: rest => CloseEv.freeNode np.sender :: closeDrain rest

/-- `msgq_close(msgq)`: cancel and join the receiver thread, then — under
the mutex — close the socket, free the receive buffer, drain the FIFO
freeing every remaining node and packet (decrementing `recvs` each time),
unlock, destroy the mutex and free the handle.  Returns the final queue
state and the effect trace. -/
def msgq_close (s : State) (fdOpen bufPresent : Bool) : State × List CloseEv :=
  (⟨[], s.recvs - s.recvq.length⟩,
   [.cancelReceiver, .joinReceiver, .lockQ]
   ++ (cond fdOpen [.closeSocket] [])
   ++ (cond bufPresent [.freeBuffer] [])
   ++ closeDrain s.recvq
   ++ [.unlockQ, .destroyMutex, .freeHandle])

/-- The observable effect of `msgq_send`: one `sendto` of the serialized
header plus payload, as a single datagram. -/
inductive SendEv
  | transmit (receiver : String) (bytes : Nat)
  deriving Repr, DecidableEq

/-- `msgq_send(msgq, receiver, packet)`: one `sendto(2)` of
`sizeof_packet(packet)` bytes to `receiver`; returns `-1` on transport
failure and `0` on success.  The queue state is passed through untouched —
the function never reads or writes `recvq`/`recvs`. -/
def msgq_send (s : State) (receiver : String) (packet : Packet)
    (transportOk : Bool) : Int × State × List SendEv :=
  ((if transportOk then 0 else -1), s,
   [.transmit receiver (headerSize + packet.size)])

/-- Outcome of `msgq_pkt_delete`: return value, whether the defensive
detachment check (`assert(ELIST_NEXT/PREV == 0)`) passed, whether the
packet and the node were freed, and the resulting queue state. -/
structure DelResult where
  ret : Int
  checkPassed : Bool
  freedPacket : Bool
  freedNode : Bool
  state : State
  deriving Repr, DecidableEq

/-- `msgq_pkt_delete(packet)` for the packet owned by node `np`: returns
`-1` if the packet has no container back-reference; otherwise defensively
checks that the node's linkage is fully detached and frees both the packet
and the node.  Modelled from the spec: the `elist.h` linkage is not under
`src/`, and a node's links are null exactly when it is not a member of the
FIFO sequence, so the assert is modelled as the membership check
`np ∈ s.recvq`; a still-enqueued node fails the check and nothing is freed
or corrupted. -/
def msgq_pkt_delete (s : State) (np : Node) : DelResult :=
  if np.packet.container = none then ⟨-1, true, false, false, s⟩
  else if np ∈ s.recvq then ⟨0, false, false, false, s⟩
  else ⟨0, true, true, true, s⟩

/-- The observable effects of `msgq_open`, `msgq_get_listener` and
`bind_anonymous`, in program order. -/
inductive Ev
  | allocHandle
  | freeHandle
  | allocBuf
  | freeBuf
  | mutexInit
  | mutexDestroy
  | condInit
  | condDestroy
  | lockQ
  | unlockQ
  | socketCreate
  | socketClose
  | mkstempCall (n : String)
  | mkstempFail
  | closeTmpFd
  | unlinkPath (n : String)
  | statCall (n : String)
  | bindCall (n : String) (ok : Bool)
  | threadCreate (ok : Bool)
  deriving Repr, DecidableEq

/-- The resources a queue handle owns. -/
inductive Res
  | handleMem
  | bufMem
  | sockFd
  | mutexRes
  | condRes
  | threadRes
  deriving Repr, DecidableEq

/-- Resource accounting for an effect trace: which acquisitions are not yet
released. -/
def resStep (held : List Res) : Ev → List Res
  | .allocHandle => Res.handleMem :: held
  | .freeHandle => held.erase Res.handleMem
  | .allocBuf => Res.bufMem :: held
  | .freeBuf => held.erase Res.bufMem
  | .mutexInit => Res.mutexRes :: held
  | .mutexDestroy => held.erase Res.mutexRes
  | .condInit => Res.condRes :: held
  | .condDestroy => held.erase Res.condRes
  | .socketCreate => Res.sockFd :: held
  | .socketClose => held.erase Res.sockFd
  | .threadCreate ok => if ok then Res.threadRes :: held else held
  | _ => held

/-- The resources still held after an effect trace, starting from nothing. -/
def resourcesHeld (evs : List Ev) : List Res := evs.foldl resStep []

/-- Filesystem accounting for an effect trace: entries as
(path, is-socket) pairs.  `mkstemp` creates a regular file; `unlink`
removes the entry; a successful `bind` of a local-domain socket creates a
socket entry at the path (closing the descriptor does not remove it). -/
def fsStep (fs : List (String × Bool)) : Ev → List (String × Bool)
  | .mkstempCall n => (n, false) :: fs
  | .unlinkPath n => fs.filter (fun e => e.1 ≠ n)
  | .bindCall n ok => if ok then (n, true) :: fs else fs
  | _ => fs

/-- The filesystem contents after an effect trace. -/
def fsAfter (fs0 : List (String × Bool)) (evs : List Ev) : List (String × Bool) :=
  evs.foldl fsStep fs0

/-- Outcome of one `bind(2)` attempt inside `bind_anonymous`. -/
inductive BindOutcome
  | ok
  | addrInUse
  | otherErr
  deriving Repr, DecidableEq

/-- One iteration of the `bind_anonymous` loop as driven by the OS: whether
`mkstemp` succeeds, the fresh name it produces, and how `bind(2)` ends. -/
structure Trial where
  mkstempOk : Bool
  tmpname : String
  bindResult : BindOutcome
  deriving Repr, DecidableEq

/-- `bind_anonymous(fd, address)`: loop — `mkstemp` a fresh template name,
close the temporary descriptor, `unlink` the temporary file, then `bind`
the socket to that path; retry while `bind` fails with `EADDRINUSE`, give
up on any other failure; on success store the name as the queue's address
and return it. -/
def bind_anonymous : List Trial → Option String × List Ev
  | [] => (none, [])
  | t :: rest =>
    if t.mkstempOk = false then (none, [.mkstempFail])
    else
      let evs : List Ev := [.mkstempCall t.tmpname, .closeTmpFd, .unlinkPath t.tmpname]
      match t.bindResult with
      | .ok => (some t.tmpname, evs ++ [.bindCall t.tmpname true])
      | .addrInUse =>
        let r := bind_anonymous rest
        (r.1, evs ++ [.bindCall t.tmpname false] ++ r.2)
      | .otherErr => (none, evs ++ [.bindCall t.tmpname false])

/-- The OS-level outcomes that drive `msgq_get_listener`: whether
`socket(2)` succeeds, the requested address (`none` = anonymous), the
`stat` result at an explicit address (`some isSock` when an entry exists),
the `bind(2)` outcome for an explicit address, and the `bind_anonymous`
trial sequence. -/
structure ListenerCfg where
  socketOk : Bool
  address : Option String
  existing : Option Bool
  bindOk : Bool
  anonTrials : List Trial
  deriving Repr, DecidableEq

/-- `msgq_get_listener(msgq, address)`: create the datagram socket; for a
null address bind anonymously; for an explicit address, fail if a
non-socket entry exists there, unlink a stale socket entry, then bind and
record the address.  On any failure close the socket (if created) and
return failure; on success return the bound address. -/
def msgq_get_listener (c : ListenerCfg) : Option String × List Ev :=
  if c.socketOk = false then (none, [])
  else
    match c.address with
    | none =>
      match bind_anonymous c.anonTrials with
      | (some a, evs) => (some a, .socketCreate :: evs)
      | (none, evs) => (none, .socketCreate :: (evs ++ [.socketClose]))
    | some addr =>
      match c.existing with
      | some isSock =>
        if isSock = false then
          (none, [.socketCreate, .statCall addr, .socketClose])
        else
          if c.bindOk then
            (some addr, [.socketCreate, .statCall addr, .unlinkPath addr,
                         .bindCall addr true])
          else
            (none, [.socketCreate, .statCall addr, .unlinkPath addr,
                    .bindCall addr false, .socketClose])
      | none =>
        if c.bindOk then
          (some addr, [.socketCreate, .statCall addr, .bindCall addr true])
        else
          (none, [.socketCreate, .statCall addr, .bindCall addr false,
                  .socketClose])

/-- The outcomes that drive `msgq_open`: the two `malloc`s, the two
synchronization-primitive initializations, the listener setup, and
`pthread_create`. -/
structure OpenCfg where
  handleAllocOk : Bool
  bufAllocOk : Bool
  mutexInitOk : Bool
  condInitOk : Bool
  listener : ListenerCfg
  threadOk : Bool
  deriving Repr, DecidableEq

/-- `msgq_open(address)`: allocate the handle and the receive buffer,
initialize the mutex and the condition variable, then — under the lock —
set up the listener socket and start the receiver thread.  On failure at
any step, run the corresponding `goto` cleanup chain of the source and
return `none`; on success return the bound address and the empty queue
state, with the full effect trace alongside. -/
def msgq_open (c : OpenCfg) : Option (String × State) × List Ev :=
  if c.handleAllocOk = false then (none, [])
  else if c.bufAllocOk = false then (none, [.allocHandle, .freeHandle])
  else if c.mutexInitOk = false then
    (none, [.allocHandle, .allocBuf, .freeBuf, .freeHandle])
  else if c.condInitOk = false then
    (none, [.allocHandle, .allocBuf, .mutexInit, .unlockQ, .mutexDestroy,
            .freeBuf, .freeHandle])
  else
    let base : List Ev := [.allocHandle, .allocBuf, .mutexInit, .condInit, .lockQ]
    match msgq_get_listener c.listener with
    | (none, levs) =>
      (none, base ++ levs ++ [.condDestroy, .unlockQ, .mutexDestroy,
                              .freeBuf, .freeHandle])
    | (some addr, levs) =>
      if c.threadOk then
        (some (addr, openState), base ++ levs ++ [.threadCreate true, .unlockQ])
      else
        (none, base ++ levs ++ [.threadCreate false, .condDestroy, .unlockQ,
                                .socketClose, .mutexDestroy, .freeBuf,
                                .freeHandle])

/-! ### Helper lemmas -/

lemma receiverStep_accepted (s : State) (d : Dgram) (h : accepted d) :
    ∃ np, receiverStep s d.sender d.packet d.len d.allocOk =
      ⟨edque_push_back s.recvq np, s.recvs + 1⟩ := by
  obtain ⟨h1, h2⟩ := h
  unfold receiverStep
  obtain ⟨vp, hvp⟩ := Option.isSome_iff_exists.mp h1
  rw [hvp]
  simp only [msgq_node_create, h2, if_true]
  exact ⟨_, rfl⟩

lemma deliverAll_recvs (ds : List Dgram) (s : State)
    (h : ∀ d ∈ ds, accepted d) :
    (deliverAll s ds).recvs = s.recvs + ds.length := by
  induction ds generalizing s with
  | nil => simp [deliverAll]
  | cons d ds ih =>
    obtain ⟨np, hnp⟩ := receiverStep_accepted s d (h d (by simp))
    have step : deliverAll s (d :: ds) =
        deliverAll (receiverStep s d.sender d.packet d.len d.allocOk) ds := rfl
    rw [step, hnp, ih _ (fun d hd => h d (by simp [hd]))]
    simp
    omega

lemma recvWaitRun_eq_some {obs : List State} {pkt : Packet} {s' : State}
    (h : recvWaitRun obs = some (pkt, s')) :
    ∃ t ∈ obs, ∃ np q, t.recvq = np :: q ∧ pkt = np.packet ∧
      s' = ⟨q, t.recvs - 1⟩ := by
  induction obs with
  | nil => simp [recvWaitRun] at h
  | cons t rest ih =>
    rcases hq : t.recvq with _ | ⟨np, q⟩
    · rw [recvWaitRun, hq] at h
      obtain ⟨u, hu, rest'⟩ := ih h
      exact ⟨u, by simp [hu], rest'⟩
    · rw [recvWaitRun, hq] at h
      simp only [edque_pop_front, Option.some.injEq, Prod.mk.injEq] at h
      exact ⟨t, by simp, np, q, hq, h.1.symm, h.2.symm⟩

/-- The number of node-freeing events in a close trace. -/
def freeNodeCount : List CloseEv → Nat
  | [] => 0
  | .freeNode _ :: rest => freeNodeCount rest + 1
  | _ :: rest => freeNodeCount rest

lemma freeNodeCount_append (a b : List CloseEv) :
    freeNodeCount (a ++ b) = freeNodeCount a + freeNodeCount b := by
  induction a with
  | nil => simp [freeNodeCount]
  | cons e rest ih =>
    cases e <;> simp [freeNodeCount, ih] <;> omega

lemma freeNodeCount_closeDrain (l : List Node) :
    freeNodeCount (closeDrain l) = l.length := by
  induction l with
  | nil => rfl
  | cons np rest ih => simp [closeDrain, freeNodeCount, ih]

lemma closeDrain_no_destroyCond (l : List Node) :
    CloseEv.destroyCond ∉ closeDrain l := by
  induction l with
  | nil => simp [closeDrain]
  | cons np rest ih => simp [closeDrain, ih]

lemma bind_anonymous_some {trials : List Trial} {a : String} {evs : List Ev}
    (h : bind_anonymous trials = (some a, evs)) :
    ∃ pre, evs = pre ++ [Ev.bindCall a true] := by
  induction trials generalizing evs with
  | nil => simp [bind_anonymous] at h
  | cons t rest ih =>
    rcases t with ⟨mk, name, br⟩
    cases mk
    · simp [bind_anonymous] at h
    · cases br
      · have h1 : bind_anonymous (⟨true, name, .ok⟩ :: rest) =
            (some name,
             [Ev.mkstempCall name, Ev.closeTmpFd, Ev.unlinkPath name] ++
               [Ev.bindCall name true]) := rfl
        rw [h1] at h
        simp only [Prod.mk.injEq, Option.some.injEq] at h
        exact ⟨[Ev.mkstempCall name, Ev.closeTmpFd, Ev.unlinkPath name],
               h.2.symm.trans (by rw [h.1])⟩
      · have h1 : bind_anonymous (⟨true, name, .addrInUse⟩ :: rest) =
            ((bind_anonymous rest).1,
             [Ev.mkstempCall name, Ev.closeTmpFd, Ev.unlinkPath name] ++
               [Ev.bindCall name false] ++ (bind_anonymous rest).2) := rfl
        rw [h1] at h
        rcases hrest : bind_anonymous rest with ⟨r, revs⟩
        rw [hrest] at h
        simp only [Prod.mk.injEq] at h
        have hr2 : bind_anonymous rest = (some a, revs) := by rw [hrest, h.1]
        obtain ⟨pre, hpre⟩ := ih hr2
        refine ⟨[Ev.mkstempCall name, Ev.closeTmpFd, Ev.unlinkPath name] ++
                  [Ev.bindCall name false] ++ pre, ?_⟩
        rw [← h.2, hpre]
        simp
      · have h1 : bind_anonymous (⟨true, name, .otherErr⟩ :: rest) =
            (none,
             [Ev.mkstempCall name, Ev.closeTmpFd, Ev.unlinkPath name] ++
               [Ev.bindCall name false]) := rfl
        rw [h1] at h
        simp at h

lemma fsAfter_append (fs0 : List (String × Bool)) (e1 e2 : List Ev) :
    fsAfter fs0 (e1 ++ e2) = fsAfter (fsAfter fs0 e1) e2 :=
  List.foldl_append _ _ _ _

lemma foldl_resStep_bind_anonymous (trials : List Trial) (held : List Res) :
    List.foldl resStep held (bind_anonymous trials).2 = held := by
  induction trials generalizing held with
  | nil => rfl
  | cons t rest ih =>
    rcases t with ⟨mk, name, br⟩
    cases mk
    · rfl
    · cases br
      · rfl
      · have h1 : (bind_anonymous (⟨true, name, .addrInUse⟩ :: rest)).2 =
            ([Ev.mkstempCall name, Ev.closeTmpFd, Ev.unlinkPath name] ++
               [Ev.bindCall name false]) ++ (bind_anonymous rest).2 := by
          simp [bind_anonymous]
        rw [h1, List.foldl_append]
        exact ih held
      · rfl

lemma foldl_resStep_listener (c : ListenerCfg) (held : List Res) :
    List.foldl resStep held (msgq_get_listener c).2 =
      if (msgq_get_listener c).1.isSome then Res.sockFd :: held else held := by
  rcases c with ⟨sok, addr, ex, bok, trials⟩
  cases sok
  · rfl
  · cases addr with
    | none =>
      rcases hb : bind_anonymous trials with ⟨r, revs⟩
      have hrev : List.foldl resStep (Res.sockFd :: held) revs =
          Res.sockFd :: held := by
        have := foldl_resStep_bind_anonymous trials (Res.sockFd :: held)
        rw [hb] at this
        exact this
      cases r with
      | none =>
        have h1 : msgq_get_listener ⟨true, none, ex, bok, trials⟩ =
            (none, Ev.socketCreate :: (revs ++ [Ev.socketClose])) := by
          simp [msgq_get_listener, hb]
        rw [h1]
        simp only [List.foldl_cons, List.foldl_append]
        have h2 : resStep held Ev.socketCreate = Res.sockFd :: held := rfl
        rw [h2, hrev]
        simp [resStep, List.erase_cons_head]
      | some a =>
        have h1 : msgq_get_listener ⟨true, none, ex, bok, trials⟩ =
            (some a, Ev.socketCreate :: revs) := by
          simp [msgq_get_listener, hb]
        rw [h1]
        simp only [List.foldl_cons, Option.isSome_some, if_true]
        have h2 : resStep held Ev.socketCreate = Res.sockFd :: held := rfl
        rw [h2, hrev]
    | some a =>
      cases ex with
      | none =>
        cases bok
        · simp [msgq_get_listener, resStep, List.erase_cons_head]
        · simp [msgq_get_listener, resStep]
      | some isSock =>
        cases isSock
        · simp [msgq_get_listener, resStep, List.erase_cons_head]
        · cases bok
          · simp [msgq_get_listener, resStep, List.erase_cons_head]
          · simp [msgq_get_listener, resStep]

/-! ### Claim theorems -/

/-- C1: the pending-count always equals the length of the FIFO sequence:
it holds for a fresh handle and is preserved by the receiver's append, by
`msgq_recv`, by `msgq_recv_wait`, and by the drain of `msgq_close`; and
after `N` successful deliveries with zero consumptions,
`msgq_message_count` returns `N`. -/
theorem C1_pending_count_invariant :
    Inv openState ∧
    (∀ s sender packet len allocOk, Inv s →
      Inv (receiverStep s sender packet len allocOk)) ∧
    (∀ s, Inv s → Inv (msgq_recv s).2) ∧
    (∀ obs pr, (∀ t ∈ obs, Inv t) → recvWaitRun obs = some pr → Inv pr.2) ∧
    (∀ s fdOpen bufPresent, Inv s → Inv (msgq_close s fdOpen bufPresent).1) ∧
    (∀ ds, (∀ d ∈ ds, accepted d) →
      msgq_message_count (deliverAll openState ds) = ds.length) := by
  refine ⟨rfl, ?_, ?_, ?_, ?_, ?_⟩
  · intro s sender packet len allocOk hInv
    cases hv : validate_packet packet (len : Int) with
    | none =>
      have e : receiverStep s sender packet len allocOk = s := by
        unfold receiverStep; rw [hv]
      rw [e]; exact hInv
    | some vp =>
      cases hn : msgq_node_create sender vp allocOk with
      | none =>
        have e : receiverStep s sender packet len allocOk = s := by
          simp only [receiverStep, hv, hn]
        rw [e]; exact hInv
      | some np =>
        have e : receiverStep s sender packet len allocOk =
            ⟨edque_push_back s.recvq np, s.recvs + 1⟩ := by
          simp only [receiverStep, hv, hn]
        rw [e]
        simp only [Inv, edque_push_back, List.length_append,
          List.length_singleton] at hInv ⊢
        omega
  · intro s hInv
    cases hq : s.recvq with
    | nil =>
      have e : (msgq_recv s).2 = s := by
        unfold msgq_recv edque_pop_front; rw [hq]
      rw [e]; exact hInv
    | cons np rest =>
      have e : (msgq_recv s).2 = ⟨rest, s.recvs - 1⟩ := by
        unfold msgq_recv edque_pop_front; rw [hq]
      rw [e]
      simp only [Inv] at hInv ⊢
      rw [hq] at hInv
      simp only [List.length_cons] at hInv
      omega
  · intro obs pr hInvAll hrun
    rcases pr with ⟨pkt, s'⟩
    obtain ⟨t, ht, np, q, hq, _, hs'⟩ := recvWaitRun_eq_some hrun
    have hInvT := hInvAll t ht
    simp only [Inv, hq, List.length_cons] at hInvT
    simp only [hs', Inv]
    omega
  · intro s fdOpen bufPresent hInv
    simp only [Inv] at hInv
    show s.recvs - s.recvq.length = ([] : List Node).length
    simp only [List.length_nil]
    omega
  · intro ds h
    have hd := deliverAll_recvs ds openState h
    simpa [msgq_message_count, openState] using hd

/-- Witness for C1 at a concrete run: two successful deliveries into a
fresh queue and zero consumptions give a pending-count of 2. -/
theorem C1_pending_count_invariant_witness :
    msgq_message_count (deliverAll openState
      [⟨"q1", ⟨5, none, [104, 105]⟩, 10, true⟩,
       ⟨"q1", ⟨2, none, [104, 105]⟩, 10, true⟩]) = 2 :=
  C1_pending_count_invariant.2.2.2.2.2 _ (by decide)

/-- C2: a datagram shorter than the fixed header is rejected by
`validate_packet`, the receiver iteration on it leaves the state (hence the
pending-count) unchanged and surfaces nothing; a datagram of at least
header size is accepted, with a declared payload length exceeding the
received payload truncated down to exactly received-length-minus-header. -/
theorem C2_short_datagram_discarded :
    (∀ (packet : Packet) (len : Nat), len < headerSize →
      validate_packet packet (len : Int) = none) ∧
    (∀ s sender (packet : Packet) (len : Nat) allocOk, len < headerSize →
      receiverStep s sender packet len allocOk = s ∧
      msgq_message_count (receiverStep s sender packet len allocOk) =
        msgq_message_count s) ∧
    (∀ (packet : Packet) (len : Nat), headerSize ≤ len →
      validate_packet packet (len : Int) =
        some ⟨min (len - headerSize) packet.size, none, packet.data⟩) ∧
    (∀ (packet : Packet) (len : Nat),
      headerSize ≤ len → len - headerSize < packet.size →
      validate_packet packet (len : Int) =
        some ⟨len - headerSize, none, packet.data⟩) := by
  have v1 : ∀ (packet : Packet) (len : Nat), len < headerSize →
      validate_packet packet (len : Int) = none := by
    intro packet len hl
    simp only [headerSize] at hl
    unfold validate_packet
    simp only [headerSize]
    rw [if_pos (by omega)]
  have v3 : ∀ (packet : Packet) (len : Nat), headerSize ≤ len →
      validate_packet packet (len : Int) =
        some ⟨min (len - headerSize) packet.size, none, packet.data⟩ := by
    intro packet len hl
    simp only [headerSize] at hl ⊢
    unfold validate_packet
    simp only [headerSize]
    rw [if_neg (by omega)]
    split
    next hc =>
      simp only [Option.some.injEq, Packet.mk.injEq, eq_self_iff_true,
        and_true, true_and]
      omega
    next hc =>
      simp only [Option.some.injEq, Packet.mk.injEq, eq_self_iff_true,
        and_true, true_and]
      omega
  refine ⟨v1, ?_, v3, ?_⟩
  · intro s sender packet len allocOk hl
    have hstep : receiverStep s sender packet len allocOk = s := by
      unfold receiverStep
      rw [v1 packet len hl]
    exact ⟨hstep, by rw [hstep]⟩
  · intro packet len hl hsz
    rw [v3 packet len hl]
    simp only [Option.some.injEq, Packet.mk.injEq, and_true]
    omega

/-- Witness for C2 at a concrete run: a 3-byte datagram (shorter than the
8-byte header) is dropped without touching the queue state, and a 10-byte
datagram declaring 5 payload bytes is truncated to the 2 received ones. -/
theorem C2_short_datagram_discarded_witness :
    (receiverStep openState "peer" ⟨5, none, [1, 2]⟩ 3 true = openState ∧
      msgq_message_count (receiverStep openState "peer" ⟨5, none, [1, 2]⟩ 3 true) =
        msgq_message_count openState) ∧
    validate_packet ⟨5, none, [1, 2]⟩ ((10 : Nat) : Int) =
      some ⟨2, none, [1, 2]⟩ :=
  ⟨C2_short_datagram_discarded.2.1 openState "peer" ⟨5, none, [1, 2]⟩ 3 true
      (by decide),
   C2_short_datagram_discarded.2.2.2 ⟨5, none, [1, 2]⟩ 10 (by decide) (by decide)⟩

/-- C7: `msgq_send` on transport failure returns `-1`, nothing is queued
locally, the trace holds exactly one transmission attempt (no retry), and
the queue state is passed through untouched; on success the queue state is
equally untouched. -/
theorem C7_send_failure_no_side_effects :
    ∀ (s : State) (receiver : String) (packet : Packet),
      (msgq_send s receiver packet false).1 = -1 ∧
      (msgq_send s receiver packet false).2.1 = s ∧
      (msgq_send s receiver packet false).2.2 =
        [SendEv.transmit receiver (headerSize + packet.size)] ∧
      (msgq_send s receiver packet true).2.1 = s :=
  fun _ _ _ => ⟨rfl, rfl, rfl, rfl⟩

/-- C8: `msgq_pkt_delete` on a packet whose node is detached from the FIFO
frees both the packet and the node and leaves the queue unchanged, so no
traversal can observe the node; on a packet whose node is still enqueued
the defensive detachment check fails and nothing is freed or corrupted; a
packet with no container back-reference yields `-1`. -/
theorem C8_pkt_delete_detached (s : State) (np : Node) :
    (np.packet.container ≠ none → np ∉ s.recvq →
      msgq_pkt_delete s np = ⟨0, true, true, true, s⟩ ∧
      np ∉ (msgq_pkt_delete s np).state.recvq ∧
      (msgq_pkt_delete s np).state.recvq = s.recvq) ∧
    (np.packet.container ≠ none → np ∈ s.recvq →
      (msgq_pkt_delete s np).checkPassed = false ∧
      (msgq_pkt_delete s np).freedPacket = false ∧
      (msgq_pkt_delete s np).freedNode = false ∧
      (msgq_pkt_delete s np).state = s) ∧
    (np.packet.container = none → (msgq_pkt_delete s np).ret = -1) := by
  unfold msgq_pkt_delete
  refine ⟨?_, ?_, ?_⟩
  · intro hc hmem
    rw [if_neg hc, if_neg hmem]
    exact ⟨rfl, hmem, rfl⟩
  · intro hc hmem
    rw [if_neg hc, if_pos hmem]
    exact ⟨rfl, rfl, rfl, rfl⟩
  · intro hc
    rw [if_pos hc]

/-- Witness for C8 at a concrete input: deleting a received packet whose
node is not in the queue frees both and leaves the (empty) queue alone. -/
theorem C8_pkt_delete_detached_witness :
    msgq_pkt_delete ⟨[], 0⟩ ⟨"q1", ⟨1, some 0, [65]⟩⟩ =
      ⟨0, true, true, true, ⟨[], 0⟩⟩ :=
  ((C8_pkt_delete_detached ⟨[], 0⟩ ⟨"q1", ⟨1, some 0, [65]⟩⟩).1
    (by decide) (by decide)).1

/-- C9: for a packet with a non-empty payload (as produced by validation),
`msgq_copy_packet` allocates one extra trailing terminator byte exactly
when the payload does not already end in one; the duplicate's recorded
length equals the original payload length in both cases — the extra byte
is not counted — while the duplicate's byte sequence gains the
terminator. -/
theorem C9_copy_packet_terminator (packet : Packet)
    (h1 : 1 ≤ packet.size) (h2 : packet.size ≤ packet.data.length) :
    (msgq_copy_packet packet).1.size = packet.size ∧
    (lastPayloadByte packet ≠ 0 →
      (msgq_copy_packet packet).2 = headerSize + packet.size + 1 ∧
      (msgq_copy_packet packet).1.data.length = packet.size + 1 ∧
      (msgq_copy_packet packet).1.data.getLast? = some 0) ∧
    (lastPayloadByte packet = 0 →
      (msgq_copy_packet packet).2 = headerSize + packet.size ∧
      (msgq_copy_packet packet).1.data.length = packet.size) := by
  unfold msgq_copy_packet
  by_cases hb : lastPayloadByte packet = 0
  · rw [if_neg (not_not_intro hb)]
    refine ⟨rfl, fun h => absurd hb h, fun _ => ⟨rfl, ?_⟩⟩
    simp only [List.length_take]
    omega
  · rw [if_pos hb]
    refine ⟨rfl, fun _ => ⟨rfl, ?_, List.getLast?_concat _⟩, fun h => absurd h hb⟩
    simp only [List.length_append, List.length_take, List.length_singleton]
    omega

/-- Witness for C9 at a concrete input: duplicating a 5-byte payload that
does not end in a terminator allocates 8 + 5 + 1 bytes, records length 5,
and the copied bytes end in the terminator. -/
theorem C9_copy_packet_terminator_witness :
    (msgq_copy_packet ⟨5, none, [104, 101, 108, 108, 111]⟩).2 =
      headerSize + 5 + 1 ∧
    (msgq_copy_packet ⟨5, none, [104, 101, 108, 108, 111]⟩).1.data.length =
      5 + 1 ∧
    (msgq_copy_packet ⟨5, none, [104, 101, 108, 108, 111]⟩).1.data.getLast? =
      some 0 :=
  (C9_copy_packet_terminator ⟨5, none, [104, 101, 108, 108, 111]⟩
    (by decide) (by decide)).2.1 (by decide)

/-- C3 counterexample: closing a handle holding one undelivered message
performs no destruction of the condition variable — `msgq_close` has no
`pthread_cond_destroy` — refuting the claim that both synchronization
primitives are destroyed. -/
theorem C3_counterexample :
    (msgq_close ⟨[⟨"q1", ⟨1, some 0, [104, 0]⟩⟩], 1⟩ true true).1.recvs = 0 ∧
    CloseEv.destroyCond ∉
      (msgq_close ⟨[⟨"q1", ⟨1, some 0, [104, 0]⟩⟩], 1⟩ true true).2 := by
  decide

/-- C3 (amended): `msgq_close` on a handle holding `K` undelivered messages
cancels and joins the receiver thread before anything else, closes the
socket, frees the receive buffer, frees exactly `K` nodes together with
their packets leaving the pending-count at zero, destroys the mutex and
frees the handle; the condition variable is never destroyed. -/
theorem C3_close_joins_and_drains (s : State) (fdOpen bufPresent : Bool)
    (hInv : Inv s) :
    freeNodeCount (msgq_close s fdOpen bufPresent).2 = s.recvq.length ∧
    (msgq_close s fdOpen bufPresent).1.recvs = 0 ∧
    (msgq_close s fdOpen bufPresent).1.recvq = [] ∧
    (msgq_close s fdOpen bufPresent).2.take 2 =
      [CloseEv.cancelReceiver, CloseEv.joinReceiver] ∧
    (fdOpen = true → CloseEv.closeSocket ∈ (msgq_close s fdOpen bufPresent).2) ∧
    (bufPresent = true → CloseEv.freeBuffer ∈ (msgq_close s fdOpen bufPresent).2) ∧
    CloseEv.destroyMutex ∈ (msgq_close s fdOpen bufPresent).2 ∧
    CloseEv.freeHandle ∈ (msgq_close s fdOpen bufPresent).2 ∧
    CloseEv.destroyCond ∉ (msgq_close s fdOpen bufPresent).2 := by
  simp only [Inv] at hInv
  cases fdOpen <;> cases bufPresent <;>
    refine ⟨?_, ?_, rfl, rfl, ?_, ?_, ?_, ?_, ?_⟩ <;>
    simp [msgq_close, freeNodeCount_append, freeNodeCount,
      freeNodeCount_closeDrain, closeDrain_no_destroyCond] <;>
    omega

/-- Witness for C3 at a concrete input: closing a queue holding one
message frees exactly one node and leaves the pending-count at zero. -/
theorem C3_close_joins_and_drains_witness :
    freeNodeCount (msgq_close ⟨[⟨"q2", ⟨1, some 0, [104, 0]⟩⟩], 1⟩ true true).2 =
      (⟨[⟨"q2", ⟨1, some 0, [104, 0]⟩⟩], 1⟩ : State).recvq.length ∧
    (msgq_close ⟨[⟨"q2", ⟨1, some 0, [104, 0]⟩⟩], 1⟩ true true).1.recvs = 0 :=
  ⟨(C3_close_joins_and_drains ⟨[⟨"q2", ⟨1, some 0, [104, 0]⟩⟩], 1⟩ true true
      (by decide)).1,
   (C3_close_joins_and_drains ⟨[⟨"q2", ⟨1, some 0, [104, 0]⟩⟩], 1⟩ true true
      (by decide)).2.1⟩

/-- C4: `msgq_recv_wait` pops and returns the head packet (decrementing
the pending-count) as soon as an observation under the lock finds the
queue non-empty; a wakeup that finds the queue empty never causes a return
but re-checks; if every observed state is empty it keeps waiting — it
never returns without a packet; and whenever it returns, some observed
state had pending-count at least 1. -/
theorem C4_recv_wait (obs : List State) :
    (∀ (s : State) rest, s.recvq = [] →
      recvWaitRun (s :: rest) = recvWaitRun rest) ∧
    (∀ (s : State) rest np q, s.recvq = np :: q →
      recvWaitRun (s :: rest) = some (np.packet, ⟨q, s.recvs - 1⟩)) ∧
    ((∀ t ∈ obs, t.recvq = []) → recvWaitRun obs = none) ∧
    (∀ pkt s', (∀ t ∈ obs, Inv t) → recvWaitRun obs = some (pkt, s') →
      ∃ t ∈ obs, 1 ≤ msgq_message_count t) := by
  refine ⟨?_, ?_, ?_, ?_⟩
  · intro s rest hq
    rw [recvWaitRun, hq]
    rfl
  · intro s rest np q hq
    rw [recvWaitRun, hq]
    rfl
  · induction obs with
    | nil => intro _; rfl
    | cons t rest ih =>
      intro h
      rw [recvWaitRun, h t (by simp)]
      exact ih (fun u hu => h u (by simp [hu]))
  · intro pkt s' hInvAll hrun
    obtain ⟨t, ht, np, q, hq, _, _⟩ := recvWaitRun_eq_some hrun
    refine ⟨t, ht, ?_⟩
    have hInvT := hInvAll t ht
    simp only [Inv, hq, List.length_cons] at hInvT
    simp only [msgq_message_count]
    omega

/-- Witness for C4 at a concrete run: an empty observation followed by a
one-element observation makes `recv_wait` return, and some observed state
had pending-count at least 1. -/
theorem C4_recv_wait_witness :
    ∃ t ∈ [(⟨[], 0⟩ : State), ⟨[⟨"q1", ⟨1, some 0, [7, 0]⟩⟩], 1⟩],
      1 ≤ msgq_message_count t :=
  (C4_recv_wait [⟨[], 0⟩, ⟨[⟨"q1", ⟨1, some 0, [7, 0]⟩⟩], 1⟩]).2.2.2
    ⟨1, some 0, [7, 0]⟩ ⟨[], 0⟩ (by decide) (by decide)

/-- C5 counterexample: a successful anonymous bind with one fresh name —
the trace unlinks the temporary path before the `bind`, not after it, and
after `bind_anonymous` returns the socket's filesystem entry for the
returned address exists, refuting that no filesystem entry remains. -/
theorem C5_counterexample :
    (bind_anonymous [⟨true, "/tmp/mq4X", .ok⟩]).1 = some "/tmp/mq4X" ∧
    ("/tmp/mq4X", true) ∈
      fsAfter [] (bind_anonymous [⟨true, "/tmp/mq4X", .ok⟩]).2 ∧
    (bind_anonymous [⟨true, "/tmp/mq4X", .ok⟩]).2 =
      [Ev.mkstempCall "/tmp/mq4X", Ev.closeTmpFd, Ev.unlinkPath "/tmp/mq4X",
       Ev.bindCall "/tmp/mq4X" true] := by
  refine ⟨rfl, ?_, rfl⟩
  decide

/-- C5 (amended): `bind_anonymous` generates a fresh temporary path,
retries on an `EADDRINUSE` collision, removes the `mkstemp` file and then
binds the socket to the path: the successful bind is the trace's last
effect, the generated path is returned as the queue's own address, and the
bind leaves a socket filesystem entry at that address. -/
theorem C5_bind_anonymous (t : Trial) (rest trials : List Trial)
    (a : String) (evs : List Ev) :
    (t.mkstempOk = true → t.bindResult = .addrInUse →
      (bind_anonymous (t :: rest)).1 = (bind_anonymous rest).1) ∧
    (t.mkstempOk = true → t.bindResult = .ok →
      bind_anonymous (t :: rest) =
        (some t.tmpname,
         [Ev.mkstempCall t.tmpname, Ev.closeTmpFd, Ev.unlinkPath t.tmpname,
          Ev.bindCall t.tmpname true])) ∧
    (bind_anonymous trials = (some a, evs) →
      ∀ fs0, (a, true) ∈ fsAfter fs0 evs) := by
  refine ⟨?_, ?_, ?_⟩
  · intro h1 h2
    rcases t with ⟨mk, name, br⟩
    cases h1
    cases h2
    rfl
  · intro h1 h2
    rcases t with ⟨mk, name, br⟩
    cases h1
    cases h2
    rfl
  · intro h fs0
    obtain ⟨pre, hpre⟩ := bind_anonymous_some h
    rw [hpre, fsAfter_append]
    show (a, true) ∈ fsStep (fsAfter fs0 pre) (Ev.bindCall a true)
    simp [fsStep]

/-- Witness for C5 at a concrete run: after a collision and a successful
retry, the returned address carries a surviving socket filesystem entry. -/
theorem C5_bind_anonymous_witness :
    ("/tmp/mqB", true) ∈ fsAfter []
      [Ev.mkstempCall "/tmp/mqA", Ev.closeTmpFd, Ev.unlinkPath "/tmp/mqA",
       Ev.bindCall "/tmp/mqA" false, Ev.mkstempCall "/tmp/mqB", Ev.closeTmpFd,
       Ev.unlinkPath "/tmp/mqB", Ev.bindCall "/tmp/mqB" true] :=
  (C5_bind_anonymous ⟨true, "/tmp/mqA", .addrInUse⟩ []
    [⟨true, "/tmp/mqA", .addrInUse⟩, ⟨true, "/tmp/mqB", .ok⟩]
    "/tmp/mqB" _).2.2 (by decide) []

/-- C6 counterexample: with an explicit address, successful allocations,
socket, bind and primitive setup but a failing `pthread_create`,
`msgq_open` fails and rolls back — yet the socket filesystem entry created
by the bind remains, so not everything created up to the failure is
released. -/
theorem C6_counterexample :
    (msgq_open ⟨true, true, true, true, ⟨true, some "/tmp/q", none, true, []⟩,
       false⟩).1 = none ∧
    ("/tmp/q", true) ∈
      fsAfter [] (msgq_open ⟨true, true, true, true,
        ⟨true, some "/tmp/q", none, true, []⟩, false⟩).2 := by
  refine ⟨rfl, ?_⟩
  decide

/-- C6 (amended): whenever `msgq_open` fails it returns `none` and every
resource it acquired — handle memory, receive buffer, socket descriptor,
mutex, condition variable, thread — has been released (a filesystem entry
created by a successful bind is not removed); and a handle is returned only
when every setup step succeeded, so no partial handle is ever returned. -/
theorem C6_open_rollback (c : OpenCfg) :
    ((msgq_open c).1 = none → resourcesHeld (msgq_open c).2 = []) ∧
    ((msgq_open c).1.isSome →
      c.handleAllocOk = true ∧ c.bufAllocOk = true ∧ c.mutexInitOk = true ∧
      c.condInitOk = true ∧ (msgq_get_listener c.listener).1.isSome ∧
      c.threadOk = true) := by
  rcases c with ⟨h1, h2, h3, h4, lc, h6⟩
  cases h1 with
  | false => exact ⟨fun _ => rfl, fun h => by simp [msgq_open] at h⟩
  | true =>
  cases h2 with
  | false => exact ⟨fun _ => rfl, fun h => by simp [msgq_open] at h⟩
  | true =>
  cases h3 with
  | false => exact ⟨fun _ => rfl, fun h => by simp [msgq_open] at h⟩
  | true =>
  cases h4 with
  | false => exact ⟨fun _ => rfl, fun h => by simp [msgq_open] at h⟩
  | true =>
  rcases hgl : msgq_get_listener lc with ⟨r, levs⟩
  have hheld := foldl_resStep_listener lc
    [Res.condRes, Res.mutexRes, Res.bufMem, Res.handleMem]
  rw [hgl] at hheld
  cases r with
  | none =>
    have e : msgq_open ⟨true, true, true, true, lc, h6⟩ =
        (none, [Ev.allocHandle, Ev.allocBuf, Ev.mutexInit, Ev.condInit,
                Ev.lockQ] ++ levs ++
               [Ev.condDestroy, Ev.unlockQ, Ev.mutexDestroy, Ev.freeBuf,
                Ev.freeHandle]) := by
      simp [msgq_open, hgl]
    refine ⟨fun _ => ?_, fun h => ?_⟩
    · rw [e]
      show List.foldl resStep [] _ = []
      rw [List.foldl_append, List.foldl_append]
      have hbase : List.foldl resStep []
          [Ev.allocHandle, Ev.allocBuf, Ev.mutexInit, Ev.condInit, Ev.lockQ] =
          [Res.condRes, Res.mutexRes, Res.bufMem, Res.handleMem] := rfl
      rw [hbase]
      simp only [Option.isSome_none, Bool.false_eq_true, if_false] at hheld
      rw [hheld]
      rfl
    · rw [e] at h
      simp at h
  | some addr =>
    simp only [Option.isSome_some, if_true] at hheld
    cases h6 with
    | false =>
      have e : msgq_open ⟨true, true, true, true, lc, false⟩ =
          (none, [Ev.allocHandle, Ev.allocBuf, Ev.mutexInit, Ev.condInit,
                  Ev.lockQ] ++ levs ++
                 [Ev.threadCreate false, Ev.condDestroy, Ev.unlockQ,
                  Ev.socketClose, Ev.mutexDestroy, Ev.freeBuf,
                  Ev.freeHandle]) := by
        simp [msgq_open, hgl]
      refine ⟨fun _ => ?_, fun h => ?_⟩
      · rw [e]
        show List.foldl resStep [] _ = []
        rw [List.foldl_append, List.foldl_append]
        have hbase : List.foldl resStep []
            [Ev.allocHandle, Ev.allocBuf, Ev.mutexInit, Ev.condInit, Ev.lockQ] =
            [Res.condRes, Res.mutexRes, Res.bufMem, Res.handleMem] := rfl
        rw [hbase, hheld]
        rfl
      · rw [e] at h
        simp at h
    | true =>
      have e : msgq_open ⟨true, true, true, true, lc, true⟩ =
          (some (addr, openState),
           [Ev.allocHandle, Ev.allocBuf, Ev.mutexInit, Ev.condInit,
            Ev.lockQ] ++ levs ++ [Ev.threadCreate true, Ev.unlockQ]) := by
        simp [msgq_open, hgl]
      refine ⟨fun h => ?_, fun _ => ?_⟩
      · rw [e] at h
        simp at h
      · exact ⟨rfl, rfl, rfl, rfl, rfl, rfl⟩

/-- Witness for C6 at a concrete input: when the receiver thread fails to
start, open fails and all acquired resources are released. -/
theorem C6_open_rollback_witness :
    resourcesHeld (msgq_open ⟨true, true, true, true,
      ⟨true, some "/tmp/q2", none, true, []⟩, false⟩).2 = [] :=
  (C6_open_rollback ⟨true, true, true, true,
    ⟨true, some "/tmp/q2", none, true, []⟩, false⟩).1 (by decide)

/-- C10 (code bug): a datagram of exactly the fixed header size is accepted
by `validate_packet` with truncated payload length 0, yet the terminator
probe of `msgq_copy_packet` on the resulting packet reads payload index
`size - 1 = -1` — outside the payload bounds `[0, 0)` — so not every
payload access of the duplication step is in bounds. -/
theorem C10_probe_out_of_bounds :
    validate_packet ⟨5, some 0, []⟩ (8 : Int) = some ⟨0, none, []⟩ ∧
    copyProbeIndex ⟨0, none, []⟩ = -1 ∧
    ¬ probeInBounds ⟨0, none, []⟩ := by
  refine ⟨by decide, by decide, ?_⟩
  intro h
  exact absurd h.1 (by decide)

end Msgq
